import Mathlib

/-!
# react-admin mutation dispatch layer: a shallow embedding

This file embeds the mutation dispatch layer of the react-admin repository
(`doQuery` and the three mutation strategies it routes to), the `SelectField`
field component and the `Datagrid` row-selection handler, and proves the
specification's claims about them.

`doQuery` (sideEffect/doQuery.ts) is translated directly from the source: it
receives the three strategy functions as parameters (in the source they are
module imports) and is otherwise a literal transcription of the if/else chain.
The three strategy implementations themselves are not part of the provided
sources, so they are modelled from the specification's §4.2-§4.4 as ordered
event traces; each such definition carries a `Modelled from the spec:` comment.
-/

namespace ReactAdmin

/-- The parameter record shared by the three query strategies
(`QueryFunctionParams` in the source).  Each field's payload type is left
abstract, so a theorem about forwarding holds for every possible argument. -/
structure QueryFunctionParams (T P R A Re OS OF DP D L AA : Type) where
  type : T
  payload : P
  resource : R
  action : A
  rest : Re
  onSuccess : OS
  onFailure : OF
  dataProvider : DP
  dispatch : D
  logoutIfAccessDenied : L
  allArguments : AA

/-- `DoQueryParameters` of the source: `QueryFunctionParams` plus the redux
store and the mutation mode.  The source types `mutationMode : MutationMode`,
but at runtime any string, `undefined` or `null` can arrive; `Option String`
models that (`none` = `undefined`/`null`). -/
structure DoQueryParameters (T P R A Re OS OF DP D L AA St : Type) extends
    QueryFunctionParams T P R A Re OS OF DP D L AA where
  store : St
  mutationMode : Option String

/-- `doQuery` from the source, transcribed clause for clause.  The three
strategy functions are module imports in the source; here they are the three
function parameters. -/
def doQuery {T P R A Re OS OF DP D L AA St Res : Type}
    (performOptimisticQuery performUndoableQuery performPessimisticQuery :
      QueryFunctionParams T P R A Re OS OF DP D L AA → Res)
    (p : DoQueryParameters T P R A Re OS OF DP D L AA St) : Res :=
  if p.mutationMode = some "optimistic" then
    performOptimisticQuery
      { type := p.type, payload := p.payload, resource := p.resource,
        action := p.action, rest := p.rest, onSuccess := p.onSuccess,
        onFailure := p.onFailure, dataProvider := p.dataProvider,
        dispatch := p.dispatch, logoutIfAccessDenied := p.logoutIfAccessDenied,
        allArguments := p.allArguments }
  else if p.mutationMode = some "undoable" then
    performUndoableQuery
      { type := p.type, payload := p.payload, resource := p.resource,
        action := p.action, rest := p.rest, onSuccess := p.onSuccess,
        onFailure := p.onFailure, dataProvider := p.dataProvider,
        dispatch := p.dispatch, logoutIfAccessDenied := p.logoutIfAccessDenied,
        allArguments := p.allArguments }
  else
    performPessimisticQuery
      { type := p.type, payload := p.payload, resource := p.resource,
        action := p.action, rest := p.rest, onSuccess := p.onSuccess,
        onFailure := p.onFailure, dataProvider := p.dataProvider,
        dispatch := p.dispatch, logoutIfAccessDenied := p.logoutIfAccessDenied,
        allArguments := p.allArguments }

/-- The three mutation strategies, as a tag used to observe which strategy a
dispatched request was routed to. -/
inductive StrategyTag : Type where
  | optimistic
  | undoable
  | pessimistic
deriving DecidableEq, Repr

/-- The strategy `doQuery`'s if/else chain selects for a given mode value. -/
def selectStrategy (mode : Option String) : StrategyTag :=
  if mode = some "optimistic" then .optimistic
  else if mode = some "undoable" then .undoable
  else .pessimistic

/-- Claim C1: for every dispatched request, `doQuery` invokes exactly one of
the three strategies, selected by the `mutationMode` value — `'optimistic'`
routes to `performOptimisticQuery`, `'undoable'` to `performUndoableQuery` and
`'pessimistic'` to `performPessimisticQuery` — no other strategy is invoked,
and `doQuery` returns the chosen strategy's result.  The first conjunct says
the result is exactly the selected strategy's result on the forwarded
arguments; the second instruments each strategy to record its invocation and
shows the recorded trace is the singleton of the selected strategy applied to
the dispatch arguments; the rest pins the selection for each mode string. -/
theorem doQuery_routes_by_mode {T P R A Re OS OF DP D L AA St Res : Type}
    (fo fu fp : QueryFunctionParams T P R A Re OS OF DP D L AA → Res)
    (p : DoQueryParameters T P R A Re OS OF DP D L AA St) :
    doQuery fo fu fp p =
      (match selectStrategy p.mutationMode with
        | .optimistic => fo p.toQueryFunctionParams
        | .undoable => fu p.toQueryFunctionParams
        | .pessimistic => fp p.toQueryFunctionParams) ∧
    doQuery (fun q => [(StrategyTag.optimistic, q)])
        (fun q => [(StrategyTag.undoable, q)])
        (fun q => [(StrategyTag.pessimistic, q)]) p
      = [(selectStrategy p.mutationMode, p.toQueryFunctionParams)] ∧
    selectStrategy (some "optimistic") = .optimistic ∧
    selectStrategy (some "undoable") = .undoable ∧
    selectStrategy (some "pessimistic") = .pessimistic := by
  refine ⟨?_, ?_, rfl, rfl, rfl⟩ <;>
  · unfold doQuery selectStrategy
    by_cases h1 : p.mutationMode = some "optimistic" <;>
      by_cases h2 : p.mutationMode = some "undoable" <;>
      simp [h1, h2]

/-- Claim C5: `doQuery` is pure routing with no side effects of its own.  The
strategies are given the type `QueryFunctionParams → List Eff × Res`, a
function returning the list of effects it performs beside its result; the
effect list and the result of `doQuery` are exactly those of the chosen
strategy, and every field of the record handed to the strategy is the
corresponding argument of the dispatch call, unchanged. -/
theorem doQuery_pure_routing {T P R A Re OS OF DP D L AA St Eff Res : Type}
    (fo fu fp : QueryFunctionParams T P R A Re OS OF DP D L AA → List Eff × Res)
    (p : DoQueryParameters T P R A Re OS OF DP D L AA St) :
    (doQuery fo fu fp p).1 =
      ((match selectStrategy p.mutationMode with
        | .optimistic => fo
        | .undoable => fu
        | .pessimistic => fp) p.toQueryFunctionParams).1 ∧
    (doQuery fo fu fp p).2 =
      ((match selectStrategy p.mutationMode with
        | .optimistic => fo
        | .undoable => fu
        | .pessimistic => fp) p.toQueryFunctionParams).2 ∧
    p.toQueryFunctionParams.type = p.type ∧
    p.toQueryFunctionParams.payload = p.payload ∧
    p.toQueryFunctionParams.resource = p.resource ∧
    p.toQueryFunctionParams.action = p.action ∧
    p.toQueryFunctionParams.rest = p.rest ∧
    p.toQueryFunctionParams.onSuccess = p.onSuccess ∧
    p.toQueryFunctionParams.onFailure = p.onFailure ∧
    p.toQueryFunctionParams.dataProvider = p.dataProvider ∧
    p.toQueryFunctionParams.dispatch = p.dispatch ∧
    p.toQueryFunctionParams.logoutIfAccessDenied = p.logoutIfAccessDenied ∧
    p.toQueryFunctionParams.allArguments = p.allArguments := by
  refine ⟨?_, ?_, rfl, rfl, rfl, rfl, rfl, rfl, rfl, rfl, rfl, rfl, rfl⟩ <;>
  · unfold doQuery selectStrategy
    by_cases h1 : p.mutationMode = some "optimistic" <;>
      by_cases h2 : p.mutationMode = some "undoable" <;>
      simp [h1, h2]

/-- Claim C8: for every `mutationMode` value other than the strings
`'optimistic'` and `'undoable'` — `none` models `undefined`/`null`, and any
other string is covered by the quantifier — `doQuery` routes the request to
`performPessimisticQuery`; and (second conjunct) on every input whatsoever,
`doQuery` invokes a strategy: the instrumented trace is a singleton. -/
theorem doQuery_defaults_to_pessimistic {T P R A Re OS OF DP D L AA St Res : Type}
    (fo fu fp : QueryFunctionParams T P R A Re OS OF DP D L AA → Res)
    (p : DoQueryParameters T P R A Re OS OF DP D L AA St)
    (h1 : p.mutationMode ≠ some "optimistic")
    (h2 : p.mutationMode ≠ some "undoable") :
    doQuery fo fu fp p = fp p.toQueryFunctionParams ∧
    ∀ q : DoQueryParameters T P R A Re OS OF DP D L AA St,
      ∃ s, doQuery (fun x => [(StrategyTag.optimistic, x)])
        (fun x => [(StrategyTag.undoable, x)])
        (fun x => [(StrategyTag.pessimistic, x)]) q = [s] := by
  constructor
  · unfold doQuery
    simp [h1, h2]
  · intro q
    refine ⟨(selectStrategy q.mutationMode, q.toQueryFunctionParams), ?_⟩
    unfold doQuery selectStrategy
    by_cases g1 : q.mutationMode = some "optimistic" <;>
      by_cases g2 : q.mutationMode = some "undoable" <;>
      simp [g1, g2]

/-- A concrete dispatch-parameter record with `mutationMode` left `undefined`,
used to witness the default-to-pessimistic routing. -/
def undefinedModeParams :
    DoQueryParameters Nat Nat Nat Nat Nat Nat Nat Nat Nat Nat Nat Nat :=
  { type := 0, payload := 1, resource := 2, action := 3, rest := 4,
    onSuccess := 5, onFailure := 6, dataProvider := 7, dispatch := 8,
    logoutIfAccessDenied := 9, allArguments := 10, store := 11,
    mutationMode := none }

/-- Witness for claim C8: at the concrete record `undefinedModeParams`
(`mutationMode = none`), `doQuery` returns the pessimistic strategy's result,
and the instrumented trace is always a singleton. -/
theorem doQuery_defaults_to_pessimistic_witness :
    undefinedModeParams.mutationMode ≠ some "optimistic" ∧
    undefinedModeParams.mutationMode ≠ some "undoable" ∧
    (doQuery (fun _ => (0 : Nat)) (fun _ => 1) (fun _ => 2) undefinedModeParams
        = (fun _ => 2) undefinedModeParams.toQueryFunctionParams ∧
      ∀ q : DoQueryParameters Nat Nat Nat Nat Nat Nat Nat Nat Nat Nat Nat Nat,
        ∃ s, doQuery (fun x => [(StrategyTag.optimistic, x)])
          (fun x => [(StrategyTag.undoable, x)])
          (fun x => [(StrategyTag.pessimistic, x)]) q = [s]) :=
  ⟨by decide, by decide,
    doQuery_defaults_to_pessimistic _ _ _ undefinedModeParams
      (by decide) (by decide)⟩

/-- Modelled from the spec: the remote Data Provider call's outcome (§3
`QueryResult`/`QueryFailure`; §6 `call(...) → Promise<QueryResult> | rejects
with QueryFailure`): a success carries the provider's returned data, a failure
carries a flag indicating whether the caller should be logged out
(auth-denied signal). -/
inductive RemoteOutcome (Δ : Type) : Type where
  | success (data : Δ)
  | failure (authDenied : Bool)

/-- Modelled from the spec: the observable events of one dispatched mutation,
in the order the strategy performs them (§4, §5 "Local Store mutations and
callback invocations occur in the order described per strategy"): a Local
Store write (carrying the slice value written), the remote Data Provider call,
a notification, the `onSuccess` / `onFailure` callback, and the
`logoutIfAccessDenied` side effect. -/
inductive MutEvent (S : Type) : Type where
  | storeWrite (s : S)
  | remoteCall
  | notify (undoable : Bool)
  | onSuccess
  | onFailure
  | logoutIfAccessDenied

/-- Modelled from the spec: `performPessimisticQuery` (its implementation file
is not among the provided sources; only its caller `doQuery` is).  §4.2:
"issue the remote call → suspend until it settles → on success, apply the
returned data to the Local Store and invoke `onSuccess`; on failure, invoke
`onFailure` with the error, and — if the failure signals an auth-denied
condition — trigger a logout side effect".  `init` is the pre-mutation Local
Store slice, `applyServer` applies the returned data to it; the result is the
ordered trace of observable events of the dispatched request. -/
def performPessimisticQuery {S Δ : Type} (init : S) (applyServer : Δ → S → S)
    (outcome : RemoteOutcome Δ) : List (MutEvent S) :=
  MutEvent.remoteCall ::
    match outcome with
    | .success d => [.storeWrite (applyServer d init), .onSuccess]
    | .failure auth =>
        .onFailure :: (if auth then [.logoutIfAccessDenied] else [])

/-- Modelled from the spec: `performOptimisticQuery` (not among the provided
sources).  §4.3: "capture an OptimisticSnapshot of the affected Local Store
slice → apply the mutation to the Local Store immediately → issue the remote
call asynchronously → on success, invoke `onSuccess`, discard the snapshot (no
replay of server data); on failure, revert the Local Store to the
OptimisticSnapshot, invoke `onFailure`, and apply the logout side effect if
the failure is auth-denied".  The snapshot is `init`; `mutate` is the local
application of the mutation. -/
def performOptimisticQuery {S Δ : Type} (init : S) (mutate : S → S)
    (outcome : RemoteOutcome Δ) : List (MutEvent S) :=
  .storeWrite (mutate init) :: .remoteCall ::
    match outcome with
    | .success _ => [.onSuccess]
    | .failure auth =>
        .storeWrite init :: .onFailure ::
          (if auth then [.logoutIfAccessDenied] else [])

/-- Modelled from the spec: `performUndoableQuery` (not among the provided
sources).  §4.4: in state Pending the Local Store is optimistically updated
and a notification offering undo is emitted; if the cancellable delay elapses
without cancellation (Pending → Committed, `undoInvoked = false`) the queued
remote call is issued — only at this point — and its outcome is handled as in
§4.3; if the user invokes undo before the delay elapses (Pending → Aborted,
`undoInvoked = true`) the Local Store reverts to the pre-mutation snapshot
immediately, the remote call is never issued and no success/failure callback
fires. -/
def performUndoableQuery {S Δ : Type} (init : S) (mutate : S → S)
    (outcome : RemoteOutcome Δ) (undoInvoked : Bool) : List (MutEvent S) :=
  .storeWrite (mutate init) :: .notify true ::
    (if undoInvoked then [.storeWrite init]
     else .remoteCall ::
       match outcome with
       | .success _ => [.onSuccess]
       | .failure auth =>
           .storeWrite init :: .onFailure ::
             (if auth then [.logoutIfAccessDenied] else []))

/-- Is this event the remote Data Provider call? -/
def isRemoteCall {S : Type} : MutEvent S → Bool
  | .remoteCall => true
  | _ => false

/-- Is this event the `onSuccess` callback firing? -/
def isOnSuccess {S : Type} : MutEvent S → Bool
  | .onSuccess => true
  | _ => false

/-- Is this event the `onFailure` callback firing? -/
def isOnFailure {S : Type} : MutEvent S → Bool
  | .onFailure => true
  | _ => false

/-- Is this event the logout side effect? -/
def isLogout {S : Type} : MutEvent S → Bool
  | .logoutIfAccessDenied => true
  | _ => false

/-- Is this event a Local Store write (optimistic application, server-data
application, or revert)? -/
def isStoreWrite {S : Type} : MutEvent S → Bool
  | .storeWrite _ => true
  | _ => false

/-- How many events of a trace satisfy `p`. -/
def countEvents {S : Type} (p : MutEvent S → Bool) (tr : List (MutEvent S)) : Nat :=
  (tr.filter p).length

/-- The Local Store slice value after a trace has run, starting from `init`:
each `storeWrite` replaces the value, every other event leaves it unchanged. -/
def finalStore {S : Type} (init : S) (tr : List (MutEvent S)) : S :=
  tr.foldl (fun s e => match e with | .storeWrite s' => s' | _ => s) init

/-- Claim C2: under the undoable mode, at most one remote call is ever issued
per dispatched mutation — none when undo is invoked inside the window, exactly
one when the window elapses uncancelled (first conjunct) — and when the user
invokes undo before the delay elapses the whole trace is: optimistic write,
undo notification, synchronous revert to the pre-mutation snapshot (second
conjunct); hence the remote call is never issued, the final store is the
pre-mutation snapshot, and neither `onSuccess` nor `onFailure` fires. -/
theorem undoable_remote_call_discipline {S Δ : Type} (init : S) (mutate : S → S)
    (outcome : RemoteOutcome Δ) (u : Bool) :
    countEvents isRemoteCall (performUndoableQuery init mutate outcome u)
        = (if u then 0 else 1) ∧
    performUndoableQuery init mutate outcome true
        = [.storeWrite (mutate init), .notify true, .storeWrite init] ∧
    finalStore init (performUndoableQuery init mutate outcome true) = init ∧
    countEvents isOnSuccess (performUndoableQuery init mutate outcome true) = 0 ∧
    countEvents isOnFailure (performUndoableQuery init mutate outcome true) = 0 := by
  refine ⟨?_, rfl, rfl, rfl, rfl⟩
  rcases u with _ | _
  · rcases outcome with d | auth
    · rfl
    · rcases auth with _ | _ <;> rfl
  · rfl

/-- Claim C3: for all three mutation modes, on a run whose remote call
rejects, `onFailure` fires exactly once; the pessimistic trace contains no
Local Store write at all (the store is untouched throughout, in particular
before the remote call resolves) so its final state is the initial one; and
for the optimistic and undoable (uncancelled) modes the final store state is
the pre-mutation snapshot. -/
theorem failing_run_callbacks_and_store {S Δ : Type} (init : S)
    (applyServer : Δ → S → S) (mutate : S → S) (auth : Bool) :
    countEvents isOnFailure
        (performPessimisticQuery init applyServer
          (RemoteOutcome.failure (Δ := Δ) auth)) = 1 ∧
    (performPessimisticQuery init applyServer
        (RemoteOutcome.failure (Δ := Δ) auth)).all
      (fun e => !(isStoreWrite e)) = true ∧
    finalStore init
        (performPessimisticQuery init applyServer
          (RemoteOutcome.failure (Δ := Δ) auth)) = init ∧
    countEvents isOnFailure
        (performOptimisticQuery init mutate
          (RemoteOutcome.failure (Δ := Δ) auth)) = 1 ∧
    finalStore init
        (performOptimisticQuery init mutate
          (RemoteOutcome.failure (Δ := Δ) auth)) = init ∧
    countEvents isOnFailure
        (performUndoableQuery init mutate
          (RemoteOutcome.failure (Δ := Δ) auth) false) = 1 ∧
    finalStore init
        (performUndoableQuery init mutate
          (RemoteOutcome.failure (Δ := Δ) auth) false) = init := by
  rcases auth with _ | _ <;>
    exact ⟨rfl, rfl, rfl, rfl, rfl, rfl, rfl⟩

/-- Claim C4: for all three mutation modes, at most one of
`onSuccess`/`onFailure` ever fires on a dispatched request: on a successful
run `onSuccess` fires exactly once and `onFailure` never; on a rejecting run
`onFailure` fires exactly once and `onSuccess` never; on a user abort
(undoable only) neither fires; and in every undoable run the total number of
callbacks fired is 0 on abort and 1 otherwise. -/
theorem callbacks_exactly_one_or_abort {S Δ : Type} (init : S)
    (applyServer : Δ → S → S) (mutate : S → S) (d : Δ) (auth : Bool)
    (outcome : RemoteOutcome Δ) (u : Bool) :
    countEvents isOnSuccess
        (performPessimisticQuery init applyServer (RemoteOutcome.success d)) = 1 ∧
    countEvents isOnFailure
        (performPessimisticQuery init applyServer (RemoteOutcome.success d)) = 0 ∧
    countEvents isOnSuccess
        (performOptimisticQuery init mutate
          (RemoteOutcome.success (Δ := Δ) d)) = 1 ∧
    countEvents isOnFailure
        (performOptimisticQuery init mutate
          (RemoteOutcome.success (Δ := Δ) d)) = 0 ∧
    countEvents isOnSuccess
        (performUndoableQuery init mutate
          (RemoteOutcome.success (Δ := Δ) d) false) = 1 ∧
    countEvents isOnFailure
        (performUndoableQuery init mutate
          (RemoteOutcome.success (Δ := Δ) d) false) = 0 ∧
    countEvents isOnFailure
        (performPessimisticQuery init applyServer
          (RemoteOutcome.failure (Δ := Δ) auth)) = 1 ∧
    countEvents isOnSuccess
        (performPessimisticQuery init applyServer
          (RemoteOutcome.failure (Δ := Δ) auth)) = 0 ∧
    countEvents isOnFailure
        (performOptimisticQuery init mutate
          (RemoteOutcome.failure (Δ := Δ) auth)) = 1 ∧
    countEvents isOnSuccess
        (performOptimisticQuery init mutate
          (RemoteOutcome.failure (Δ := Δ) auth)) = 0 ∧
    countEvents isOnFailure
        (performUndoableQuery init mutate
          (RemoteOutcome.failure (Δ := Δ) auth) false) = 1 ∧
    countEvents isOnSuccess
        (performUndoableQuery init mutate
          (RemoteOutcome.failure (Δ := Δ) auth) false) = 0 ∧
    countEvents isOnSuccess (performUndoableQuery init mutate outcome true) = 0 ∧
    countEvents isOnFailure (performUndoableQuery init mutate outcome true) = 0 ∧
    countEvents (fun e => isOnSuccess e || isOnFailure e)
        (performUndoableQuery init mutate outcome u) = (if u then 0 else 1) := by
  refine ⟨rfl, rfl, rfl, rfl, rfl, rfl, ?_, ?_, ?_, ?_, ?_, ?_, rfl, rfl, ?_⟩
  · rcases auth with _ | _ <;> rfl
  · rcases auth with _ | _ <;> rfl
  · rcases auth with _ | _ <;> rfl
  · rcases auth with _ | _ <;> rfl
  · rcases auth with _ | _ <;> rfl
  · rcases auth with _ | _ <;> rfl
  · rcases u with _ | _
    · rcases outcome with d' | auth'
      · rfl
      · rcases auth' with _ | _ <;> rfl
    · rfl

/-- Claim C6: in optimistic mode the Local Store reflects the mutated value
synchronously after dispatch, before the remote call settles: regardless of
the outcome, the trace begins with the optimistic write of `mutate init`
followed by the remote call (so the snapshot `init` is captured, the mutation
is applied, and only then is the call issued); on success the trace is exactly
write-call-`onSuccess`, the final store is the locally written value (no
replay of server data), and that optimistic write is the only store write of
the successful run. -/
theorem optimistic_write_before_remote {S Δ : Type} (init : S) (mutate : S → S)
    (outcome : RemoteOutcome Δ) (d : Δ) :
    (performOptimisticQuery init mutate outcome).take 2
        = [.storeWrite (mutate init), .remoteCall] ∧
    finalStore init ((performOptimisticQuery init mutate outcome).take 1)
        = mutate init ∧
    performOptimisticQuery init mutate (RemoteOutcome.success (Δ := Δ) d)
        = [.storeWrite (mutate init), .remoteCall, .onSuccess] ∧
    finalStore init
        (performOptimisticQuery init mutate (RemoteOutcome.success (Δ := Δ) d))
        = mutate init ∧
    countEvents isStoreWrite
        (performOptimisticQuery init mutate
          (RemoteOutcome.success (Δ := Δ) d)) = 1 := by
  refine ⟨?_, ?_, rfl, rfl, rfl⟩ <;>
  · rcases outcome with d' | auth
    · rfl
    · rfl

/-- Claim C7: for every mutation mode, the logout side effect fires exactly
when the remote failure is flagged auth-denied — once when the flag is set,
never otherwise — and on such a failure `onFailure` fires as well (the logout
is in addition to `onFailure`, never instead of it); on successful runs and on
user abort the logout side effect never fires. -/
theorem logout_iff_auth_denied {S Δ : Type} (init : S)
    (applyServer : Δ → S → S) (mutate : S → S) (auth : Bool) (d : Δ)
    (outcome : RemoteOutcome Δ) :
    countEvents isLogout
        (performPessimisticQuery init applyServer
          (RemoteOutcome.failure (Δ := Δ) auth)) = (if auth then 1 else 0) ∧
    countEvents isOnFailure
        (performPessimisticQuery init applyServer
          (RemoteOutcome.failure (Δ := Δ) auth)) = 1 ∧
    countEvents isLogout
        (performOptimisticQuery init mutate
          (RemoteOutcome.failure (Δ := Δ) auth)) = (if auth then 1 else 0) ∧
    countEvents isOnFailure
        (performOptimisticQuery init mutate
          (RemoteOutcome.failure (Δ := Δ) auth)) = 1 ∧
    countEvents isLogout
        (performUndoableQuery init mutate
          (RemoteOutcome.failure (Δ := Δ) auth) false) = (if auth then 1 else 0) ∧
    countEvents isOnFailure
        (performUndoableQuery init mutate
          (RemoteOutcome.failure (Δ := Δ) auth) false) = 1 ∧
    countEvents isLogout
        (performPessimisticQuery init applyServer (RemoteOutcome.success d)) = 0 ∧
    countEvents isLogout
        (performOptimisticQuery init mutate
          (RemoteOutcome.success (Δ := Δ) d)) = 0 ∧
    countEvents isLogout
        (performUndoableQuery init mutate
          (RemoteOutcome.success (Δ := Δ) d) false) = 0 ∧
    countEvents isLogout (performUndoableQuery init mutate outcome true) = 0 := by
  rcases auth with _ | _ <;>
    exact ⟨rfl, rfl, rfl, rfl, rfl, rfl, rfl, rfl, rfl, rfl⟩

/-- A JavaScript object, modelled as an association list from property names
to values; a missing key reads as `undefined`, modelled by `none`. -/
abbrev JsObj (V : Type) := List (String × V)

/-- Property read on a `JsObj`: the first binding of the key, `none`
(`undefined`) when the object has no such key.  Models both lodash
`get(record, source)` at a plain key and the bracket access `c[optionValue]`
of the source. -/
def jsGet {V : Type} (o : JsObj V) (key : String) : Option V :=
  (o.find? (fun kv => kv.1 == key)).map (fun kv => kv.2)

/-- The `optionText` prop of `SelectField`: either the name of the property
holding the text, or a React component rendered with the matching choice as
its `record` prop (`createElement(optionText, { record: choice })`). -/
inductive OptionTextProp (V E : Type) : Type where
  | text (field : String)
  | component (render : JsObj V → E)

/-- What `SelectField` renders: `null` when no choice matches, otherwise a
`Typography` element whose content is the (possibly translated) choice name —
a property value (`Sum.inl`, possibly `undefined`) or a rendered component
(`Sum.inr`). -/
inductive SelectFieldResult (V E : Type) : Type where
  | null
  | typography (content : Sum (Option V) E)

/-- `SelectField` from the source: read `value` at `source` in the record,
look for the first choice whose `optionValue` property is strictly equal to
it, render `null` when there is none, and otherwise wrap the (possibly
translated) choice text in a `Typography` element.  JS strict equality on
possibly-`undefined` property reads is equality of `Option V` (in particular
`undefined === undefined` holds, as in JS).  `translate` models the
`useTranslate` hook's function. -/
def SelectField {V E : Type} [DecidableEq V] (record : JsObj V) (source : String)
    (choices : List (JsObj V)) (optionValue : String)
    (optionText : OptionTextProp V E) (translateChoice : Bool)
    (translate : Sum (Option V) E → Sum (Option V) E) : SelectFieldResult V E :=
  let value := jsGet record source
  match choices.find? (fun c => jsGet c optionValue == value) with
  | none => .null
  | some choice =>
      let choiceName : Sum (Option V) E :=
        match optionText with
        | .text f => Sum.inl (jsGet choice f)
        | .component r => Sum.inr (r choice)
      .typography (if translateChoice then translate choiceName else choiceName)

/-- Claim C9: for every record, choices list, `optionValue` and `source`, if
no element of `choices` has its `optionValue` property equal to the value read
at `source` in the record — which covers an empty choices list and a record
lacking the `source` key — then `SelectField` renders `null` (and, being a
total function returning `.null`, raises no error and evaluates no choice
text). -/
theorem SelectField_no_match_renders_null {V E : Type} [DecidableEq V]
    (record : JsObj V) (source : String) (choices : List (JsObj V))
    (optionValue : String) (optionText : OptionTextProp V E)
    (translateChoice : Bool)
    (translate : Sum (Option V) E → Sum (Option V) E)
    (h : ∀ c ∈ choices, jsGet c optionValue ≠ jsGet record source) :
    SelectField record source choices optionValue optionText translateChoice
      translate = .null := by
  have hfind :
      choices.find? (fun c => jsGet c optionValue == jsGet record source)
        = none := by
    rw [List.find?_eq_none]
    intro c hc
    simpa using h c hc
  simp [SelectField, hfind]

/-- Witness for claim C9: a record whose `gender` is `1` and a single choice
whose `id` is `2` — no choice matches, and `SelectField` renders `null`. -/
theorem SelectField_no_match_renders_null_witness :
    (∀ c ∈ [[("id", (2 : Nat))]], jsGet c "id" ≠ jsGet [("gender", (1 : Nat))] "gender") ∧
    SelectField (E := Unit) [("gender", (1 : Nat))] "gender" [[("id", 2)]] "id"
      (OptionTextProp.text "name") true id = .null :=
  ⟨by decide,
    SelectField_no_match_renders_null _ _ _ _ _ _ _ (by decide)⟩

/-- A row record of the Datagrid: its `id` (a JS `Identifier`, modelled as an
integer) and the rest of its fields. -/
structure DgRecord (α : Type) where
  id : Int
  value : α
deriving DecidableEq

/-- The callback `handleToggleItem` ends up invoking: `onSelect` with a list
of ids, or `onToggleItem` with the clicked id. -/
inductive ToggleEffect : Type where
  | selectIds (ids : List Int)
  | toggleItem (id : Int)
deriving DecidableEq

/-- JS `Array.prototype.indexOf`: the index of the first strict-equality
match, `-1` when there is none. -/
def jsIndexOf (xs : List Int) (x : Int) : Int :=
  if x ∈ xs then (List.indexOf x xs : Int) else -1

/-- `ids.indexOf(lastSelected.current)` where the ref may hold `null`
(modelled by `none`): `indexOf` of `null` on an id array is `-1`. -/
def jsIndexOfOpt (xs : List Int) (x : Option Int) : Int :=
  match x with
  | none => -1
  | some v => jsIndexOf xs v

/-- JS `Array.prototype.slice(start, end)`: a negative bound counts from the
end, bounds are clamped to the array, and the element at `end` is excluded. -/
def jsSlice {γ : Type} (xs : List γ) (start stop : Int) : List γ :=
  let len : Int := xs.length
  let b := if start < 0 then max (len + start) 0 else min start len
  let e := if stop < 0 then max (len + stop) 0 else min stop len
  (xs.drop b.toNat).take (e - b).toNat

/-- JS indexing of an array by an arbitrary integer: `undefined` (`none`) when
the index is negative or past the end.  Models the source's `data[id]`, which
indexes the data array by a record id. -/
def jsArrGet {γ : Type} (xs : List γ) (i : Int) : Option γ :=
  if i < 0 then none else xs.get? i.toNat

/-- lodash `uniq`: duplicates removed, first occurrence kept, order of first
occurrences preserved. -/
def lodashUniq {γ : Type} [DecidableEq γ] (l : List γ) : List γ :=
  l.foldl (fun acc x => if x ∈ acc then acc else acc ++ [x]) []

/-- lodash `union(a, b)`: the unique values of both arrays, in order of first
occurrence. -/
def lodashUnion {γ : Type} [DecidableEq γ] (a b : List γ) : List γ :=
  lodashUniq (a ++ b)

/-- lodash `difference(a, b)`: the values of `a` not contained in `b`, in the
order of `a` (duplicates of `a` are kept). -/
def lodashDifference {γ : Type} [DecidableEq γ] (a b : List γ) : List γ :=
  a.filter (fun x => !(b.contains x))

/-- The id column of the data array: `data.map(record => record.id)`. -/
def rowIds {α : Type} (data : List (DgRecord α)) : List Int :=
  data.map (fun r => r.id)

/-- `handleToggleItem` from the source's `Datagrid`, as a pure function: given
the data rows, the current `selectedIds`, the optional `isRowSelectable`
predicate, the `lastSelected` ref's current value, the clicked `id` and the
event's `checked`/`shiftKey` flags, it returns the callback it invokes
(`onSelect` with a list, or `onToggleItem` with the clicked id) paired with
the new value of the `lastSelected` ref. -/
def handleToggleItem {α : Type} (data : List (DgRecord α)) (selectedIds : List Int)
    (isRowSelectable : Option (Option (DgRecord α) → Bool))
    (lastSelected : Option Int) (id : Int) (checked shiftKey : Bool) :
    ToggleEffect × Option Int :=
  let ids := data.map (fun r => r.id)
  let lastSelectedIndex := jsIndexOfOpt ids lastSelected
  let newLastSelected := if checked then some id else none
  if shiftKey = true ∧ lastSelectedIndex ≠ -1 then
    let index := jsIndexOf ids id
    let idsBetweenSelections :=
      jsSlice ids (min lastSelectedIndex index) (max lastSelectedIndex index + 1)
    let newSelectedIds :=
      if checked then lodashUnion selectedIds idsBetweenSelections
      else lodashDifference selectedIds idsBetweenSelections
    (ToggleEffect.selectIds
      (match isRowSelectable with
        | some sel => newSelectedIds.filter (fun i => sel (jsArrGet data i))
        | none => newSelectedIds),
      newLastSelected)
  else
    (ToggleEffect.toggleItem id, newLastSelected)

/-- The contiguous block of row ids between the previous and the current row,
endpoints included: what the source computes as
`ids.slice(Math.min(lastSelectedIndex, index), Math.max(lastSelectedIndex, index) + 1)`. -/
def shiftBlock (ids : List Int) (lastId id : Int) : List Int :=
  jsSlice ids (min (jsIndexOf ids lastId) (jsIndexOf ids id))
    (max (jsIndexOf ids lastId) (jsIndexOf ids id) + 1)

/-- Membership through the first-occurrence fold behind `lodashUniq`. -/
theorem mem_foldl_uniqStep {γ : Type} [DecidableEq γ] (l : List γ) (acc : List γ)
    (x : γ) :
    x ∈ l.foldl (fun acc y => if y ∈ acc then acc else acc ++ [y]) acc ↔
      x ∈ acc ∨ x ∈ l := by
  induction l generalizing acc with
  | nil => simp
  | cons y ys ih =>
    simp only [List.foldl_cons]
    by_cases hy : y ∈ acc
    · rw [if_pos hy, ih]
      constructor
      · rintro (h | h)
        · exact Or.inl h
        · exact Or.inr (List.mem_cons_of_mem _ h)
      · rintro (h | h)
        · exact Or.inl h
        · rcases List.mem_cons.mp h with rfl | h
          · exact Or.inl hy
          · exact Or.inr h
    · rw [if_neg hy, ih]
      simp only [List.mem_append, List.mem_cons, List.mem_singleton]
      tauto

/-- `lodashUnion` is the union, as sets. -/
theorem mem_lodashUnion {γ : Type} [DecidableEq γ] (a b : List γ) (x : γ) :
    x ∈ lodashUnion a b ↔ x ∈ a ∨ x ∈ b := by
  unfold lodashUnion lodashUniq
  rw [mem_foldl_uniqStep]
  simp

/-- `lodashDifference` is the set difference, as sets. -/
theorem mem_lodashDifference {γ : Type} [DecidableEq γ] (a b : List γ) (x : γ) :
    x ∈ lodashDifference a b ↔ x ∈ a ∧ x ∉ b := by
  simp [lodashDifference, List.mem_filter]

/-- `jsSlice` at natural bounds is a clamped drop-then-take. -/
theorem jsSlice_natCast {γ : Type} (xs : List γ) (m e : Nat) :
    jsSlice xs (m : Int) (e : Int) =
      (xs.drop (min m xs.length)).take (min e xs.length - min m xs.length) := by
  simp only [jsSlice]
  rw [if_neg (show ¬((m : Int) < 0) by omega),
    if_neg (show ¬((e : Int) < 0) by omega)]
  congr 1
  · omega
  · congr 1
    omega

/-- An element whose index lies between the slice bounds is in the slice. -/
theorem getElem_mem_jsSlice (xs : List Int) (m M j : Nat) (hmj : m ≤ j)
    (hjM : j ≤ M) (hj : j < xs.length) :
    xs[j] ∈ jsSlice xs (m : Int) ((M : Int) + 1) := by
  have hcast : ((M : Int) + 1) = ((M + 1 : Nat) : Int) := by push_cast; ring
  rw [hcast, jsSlice_natCast]
  obtain ⟨k, rfl⟩ : ∃ k, j = m + k := ⟨j - m, by omega⟩
  rw [List.mem_iff_getElem]
  have hmin : min m xs.length = m := by omega
  refine ⟨k, ?_, ?_⟩
  · simp only [List.length_take, List.length_drop, hmin]
    omega
  · rw [List.getElem_take, List.getElem_drop]
    congr 1
    omega

/-- Every id of the data whose row index lies between the previous and the
current row's indices is in the shift-selection block; in particular both
endpoints are. -/
theorem indexOf_mem_shiftBlock (ids : List Int) (a lastId id : Int)
    (ha : a ∈ ids) (hlast : lastId ∈ ids) (hid : id ∈ ids)
    (hge : min (List.indexOf lastId ids) (List.indexOf id ids) ≤ List.indexOf a ids)
    (hle : List.indexOf a ids ≤ max (List.indexOf lastId ids) (List.indexOf id ids)) :
    a ∈ shiftBlock ids lastId id := by
  have hlt : List.indexOf a ids < ids.length := List.indexOf_lt_length.2 ha
  have e1 : jsIndexOf ids lastId = ((List.indexOf lastId ids : Nat) : Int) := by
    unfold jsIndexOf
    rw [if_pos hlast]
  have e2 : jsIndexOf ids id = ((List.indexOf id ids : Nat) : Int) := by
    unfold jsIndexOf
    rw [if_pos hid]
  unfold shiftBlock
  rw [e1, e2, ← Nat.cast_min, ← Nat.cast_max]
  have h := getElem_mem_jsSlice ids
    (min (List.indexOf lastId ids) (List.indexOf id ids))
    (max (List.indexOf lastId ids) (List.indexOf id ids))
    (List.indexOf a ids) hge hle hlt
  rwa [List.getElem_indexOf hlt] at h

/-- What claim C10 (amended) asserts of `handleToggleItem` at a given data
array, selection, previous row id, clicked id and checked flag: with no
`isRowSelectable` predicate and shift held, `onSelect` receives the lodash
union (checked) or difference (unchecked) of the current selection with the
contiguous block between the two rows; with any `isRowSelectable` predicate
provided, `onSelect` receives that same union or difference first filtered by
`isRowSelectable(data[id])`; the union/difference is the set union / set
difference; both endpoints belong to the block; and without shift or without
a previous selection only the clicked id is toggled via `onToggleItem`. -/
def ShiftSelectionSpec {α : Type} (data : List (DgRecord α)) (selectedIds : List Int)
    (lastId id : Int) (checked : Bool) : Prop :=
  (handleToggleItem data selectedIds none (some lastId) id checked true).1
      = ToggleEffect.selectIds
          (if checked then lodashUnion selectedIds (shiftBlock (rowIds data) lastId id)
           else lodashDifference selectedIds (shiftBlock (rowIds data) lastId id)) ∧
  (∀ sel : Option (DgRecord α) → Bool,
    (handleToggleItem data selectedIds (some sel) (some lastId) id checked true).1
      = ToggleEffect.selectIds
          ((if checked then lodashUnion selectedIds (shiftBlock (rowIds data) lastId id)
            else lodashDifference selectedIds (shiftBlock (rowIds data) lastId id)).filter
            (fun i => sel (jsArrGet data i)))) ∧
  (∀ x, x ∈ lodashUnion selectedIds (shiftBlock (rowIds data) lastId id) ↔
      x ∈ selectedIds ∨ x ∈ shiftBlock (rowIds data) lastId id) ∧
  (∀ x, x ∈ lodashDifference selectedIds (shiftBlock (rowIds data) lastId id) ↔
      x ∈ selectedIds ∧ x ∉ shiftBlock (rowIds data) lastId id) ∧
  lastId ∈ shiftBlock (rowIds data) lastId id ∧
  id ∈ shiftBlock (rowIds data) lastId id ∧
  (∀ (sel : List Int) (last : Option Int) (ck : Bool)
      (isr : Option (Option (DgRecord α) → Bool)),
    (handleToggleItem data sel isr last id ck false).1 = ToggleEffect.toggleItem id) ∧
  (∀ (sel : List Int) (ck sh : Bool) (isr : Option (Option (DgRecord α) → Bool)),
    (handleToggleItem data sel isr none id ck sh).1 = ToggleEffect.toggleItem id)

/-- Claim C10, amended: the claimed description of `handleToggleItem` holds
whenever no `isRowSelectable` predicate is provided (when one is provided the
union/difference is further filtered by `isRowSelectable(data[id])` — see the
counterexample), for any data containing both the previously toggled and the
clicked row. -/
theorem handleToggleItem_shift_selection {α : Type} (data : List (DgRecord α))
    (selectedIds : List Int) (lastId id : Int) (checked : Bool)
    (hlast : lastId ∈ rowIds data) (hid : id ∈ rowIds data) :
    ShiftSelectionSpec data selectedIds lastId id checked := by
  have hlast' : lastId ∈ List.map (fun r => r.id) data := hlast
  have hid' : id ∈ List.map (fun r => r.id) data := hid
  have hne : jsIndexOf (List.map (fun r => r.id) data) lastId ≠ -1 := by
    unfold jsIndexOf
    rw [if_pos hlast']
    omega
  refine ⟨?_, ?_, fun x => mem_lodashUnion _ _ x, fun x => mem_lodashDifference _ _ x,
    ?_, ?_, ?_, ?_⟩
  · simp only [handleToggleItem, jsIndexOfOpt]
    rw [if_pos (show _ ∧ _ from ⟨by trivial, hne⟩)]
    simp only [shiftBlock, rowIds, jsIndexOfOpt]
  · intro sel
    simp only [handleToggleItem, jsIndexOfOpt]
    rw [if_pos (show _ ∧ _ from ⟨by trivial, hne⟩)]
    simp only [shiftBlock, rowIds, jsIndexOfOpt]
  · exact indexOf_mem_shiftBlock _ _ _ _ hlast hlast hid
      (by omega) (by omega)
  · exact indexOf_mem_shiftBlock _ _ _ _ hid hlast hid
      (by omega) (by omega)
  · intro sel last ck isr
    rfl
  · intro sel ck sh isr
    rcases sh with _ | _
    · rfl
    · simp [handleToggleItem, jsIndexOfOpt]

/-- The data rows used to witness the amended claim C10. -/
def shiftDataW : List (DgRecord Unit) := [⟨0, ()⟩, ⟨1, ()⟩, ⟨2, ()⟩]

/-- Witness for the amended claim C10: three rows with ids 0, 1, 2, previous
row 0, clicked row 2, checked, selection `[1]`: shift-clicking selects the
union of `[1]` with the whole block `[0, 1, 2]`. -/
theorem handleToggleItem_shift_selection_witness :
    (0 : Int) ∈ rowIds shiftDataW ∧ (2 : Int) ∈ rowIds shiftDataW ∧
    ShiftSelectionSpec shiftDataW [1] 0 2 true :=
  ⟨by decide, by decide,
    handleToggleItem_shift_selection shiftDataW [1] 0 2 true
      (by decide) (by decide)⟩

/-- Counterexample to claim C10 as stated: with an `isRowSelectable` predicate
provided (here one that rejects every row), shift-clicking row 1 after row 0
with selection `[0]` makes `handleToggleItem` pass `[]` to `onSelect`, while
the union of the current selection with the contiguous block `[0, 1]` contains
`0` — the ids passed to `onSelect` are the union filtered by
`isRowSelectable(data[id])`, not the union itself. -/
theorem handleToggleItem_isRowSelectable_cex :
    (handleToggleItem (α := Unit) [⟨0, ()⟩, ⟨1, ()⟩] [0] (some (fun _ => false))
        (some 0) 1 true true).1
      = ToggleEffect.selectIds [] ∧
    shiftBlock (rowIds (α := Unit) [⟨0, ()⟩, ⟨1, ()⟩]) 0 1 = [0, 1] ∧
    lodashUnion [(0 : Int)] (shiftBlock (rowIds (α := Unit) [⟨0, ()⟩, ⟨1, ()⟩]) 0 1)
      = [0, 1] ∧
    ¬((0 : Int) ∈ ([] : List Int) ↔
        (0 : Int) ∈ ([0] : List Int) ∨
          (0 : Int) ∈ shiftBlock (rowIds (α := Unit) [⟨0, ()⟩, ⟨1, ()⟩]) 0 1) := by
  decide

end ReactAdmin
